import Mathlib

/-!
# Verification of the FHEVM SDK core (session state machine, encryption
# builder, decryption coordinator)

Shallow embedding of `packages/fhevm-sdk/src/core/EncryptionBuilder.ts`
(which also contains the `FhevmClient` session state machine) and
`packages/fhevm-sdk/src/core/DecryptionHandler.ts`, together with theorems
settling the specification's claims about them.

The embedding models the single-threaded event loop explicitly: the
synchronous prefix of each async method is one atomic step, and the
delivery of each pending promise resolution (success, abort rejection, or
other rejection) is a separate atomic step chosen by the environment.
-/

namespace FhevmSDK

/-! ## Session state machine (`FhevmClient`)

Translated from `FhevmClient` in `core/EncryptionBuilder.ts` (second
document in the file), lines 236-493 of the concatenation:
fields `_state`, `_listeners`, `_abortController`, `_config`,
`_initializationId`, and the methods `subscribe`, `initialize`, `refresh`,
`destroy`, `_setState`. The opaque `FhevmInstance` is modelled as a `Nat`
identifier; `Eip1193Provider` likewise. -/

/-- Structured error, from `class FhevmClientError` (`code`, `message`;
the optional `cause` is irrelevant to the claims and omitted). -/
structure FhevmClientErr where
  code : String
  message : String
deriving DecidableEq, Repr

/-- `FhevmClientState`, the tagged union
`idle | initializing {progress?} | ready {instance} | error {error}`. -/
inductive FhevmClientState where
  | idle : FhevmClientState
  | initializing (progress : Option String) : FhevmClientState
  | ready (inst : Nat) : FhevmClientState
  | error (err : FhevmClientErr) : FhevmClientState
deriving DecidableEq, Repr

/-- `FhevmClientConfig` (`provider`, `chainId`; `mockChains` omitted —
it is forwarded opaquely to the resolver). -/
structure FhevmClientConfig where
  provider : Nat
  chainId : Nat
deriving DecidableEq, Repr

/-- One initialization attempt: its id (the value of
`_initializationId` stamped at the start of `initialize`), whether its
`AbortController`'s signal has been aborted, and whether its
`createFhevmInstance` promise is still pending (not yet settled). -/
structure Attempt where
  id : Nat
  aborted : Bool
  pending : Bool
deriving DecidableEq, Repr

/-- The state of one `FhevmClient` object plus the bookkeeping of its
in-flight attempts.  `hasController` is `_abortController ≠ null`; when it
is true the live controller is the one created by attempt `initId`. -/
structure Client where
  state : FhevmClientState
  listeners : List Nat
  config : Option FhevmClientConfig
  initId : Nat
  hasController : Bool
  attempts : List Attempt
deriving DecidableEq, Repr

/-- A freshly constructed `FhevmClient`. -/
def Client.initial : Client :=
  { state := .idle, listeners := [], config := none, initId := 0,
    hasController := false, attempts := [] }

/-- How the resolver (`createFhevmInstance`) settles an attempt's promise:
fulfilment with an instance, rejection with `FhevmAbortError`, rejection
with a `FhevmClientError`, or rejection with any other error (carrying a
message). -/
inductive Outcome where
  | success (inst : Nat) : Outcome
  | failAbort : Outcome
  | failClientError (code message : String) : Outcome
  | failOther (message : String) : Outcome
deriving DecidableEq, Repr

/-- Mark the attempt with id `aid` as aborted (its signal fires). -/
def abortAttempt (atts : List Attempt) (aid : Nat) : List Attempt :=
  atts.map fun a => if a.id = aid then { a with aborted := true } else a

/-- Mark the attempt with id `aid` as settled (promise no longer pending). -/
def settleAttempt (atts : List Attempt) (aid : Nat) : List Attempt :=
  atts.map fun a => if a.id = aid then { a with pending := false } else a

/-- Is attempt `aid` still pending? -/
def attemptPending (atts : List Attempt) (aid : Nat) : Bool :=
  atts.any fun a => a.id = aid && a.pending

/-- Was attempt `aid`'s signal aborted? -/
def attemptAborted (atts : List Attempt) (aid : Nat) : Bool :=
  atts.any fun a => a.id = aid && a.aborted

/-- Synchronous prefix of `initialize(config)` (lines 373-386): stamp
`currentInitId = ++initializationId`, abort the existing controller if
any, store the config, create a fresh controller, publish
`{status:"initializing"}`, and start the resolver (a new pending
attempt). -/
def stepInit (c : Client) (cfg : FhevmClientConfig) : Client :=
  let newId := c.initId + 1
  let atts := if c.hasController then abortAttempt c.attempts c.initId else c.attempts
  { state := .initializing none
    listeners := c.listeners
    config := some cfg
    initId := newId
    hasController := true
    attempts := atts ++ [{ id := newId, aborted := false, pending := true }] }

/-- Delivery of attempt `aid`'s settlement (the continuation of
`initialize` after `await createFhevmInstance`, lines 388-424).  A
settlement for an attempt that is not pending cannot be delivered
(no-op).  On fulfilment the code checks
`signal.aborted || currentInitId !== this._initializationId` before
publishing `ready`; the `catch` block publishes `idle` on
`FhevmAbortError` and `error` on anything else, with no such check. -/
def stepComplete (c : Client) (aid : Nat) (o : Outcome) : Client :=
  if attemptPending c.attempts aid then
    let wasAborted := attemptAborted c.attempts aid
    let c' := { c with attempts := settleAttempt c.attempts aid }
    match o with
    | .success inst =>
        if wasAborted || aid ≠ c.initId then c'
        else { c' with state := .ready inst }
    | .failAbort => { c' with state := .idle }
    | .failClientError code msg => { c' with state := .error ⟨code, msg⟩ }
    | .failOther msg => { c' with state := .error ⟨"INIT_ERROR", msg⟩ }
  else c

/-- Delivery of an `onStatusChange(status)` progress callback from the
resolver for attempt `aid` (lines 393-398): publishes
`{status:"initializing", progress}` unconditionally; only a still-running
(pending) attempt can fire it. -/
def stepProgress (c : Client) (aid : Nat) (s : String) : Client :=
  if attemptPending c.attempts aid then
    { c with state := .initializing (some s) }
  else c

/-- `destroy()` (lines 443-451): abort and drop the controller, clear the
listener set, publish `idle`, clear the config. -/
def stepDestroy (c : Client) : Client :=
  let atts := if c.hasController then abortAttempt c.attempts c.initId else c.attempts
  { state := .idle, listeners := [], config := none, initId := c.initId,
    hasController := false, attempts := atts }

/-- `subscribe(listener)` (lines 354-368): `Set.add`. -/
def stepSubscribe (c : Client) (lid : Nat) : Client :=
  { c with listeners := if lid ∈ c.listeners then c.listeners else c.listeners ++ [lid] }

/-- The unsubscribe closure returned by `subscribe`: `Set.delete`. -/
def stepUnsubscribe (c : Client) (lid : Nat) : Client :=
  { c with listeners := c.listeners.filter (· ≠ lid) }

/-- Events of the single-threaded event loop acting on one client. -/
inductive Event where
  | init (cfg : FhevmClientConfig) : Event
  | complete (aid : Nat) (o : Outcome) : Event
  | progress (aid : Nat) (s : String) : Event
  | destroy : Event
  | subscribe (lid : Nat) : Event
  | unsubscribe (lid : Nat) : Event
deriving DecidableEq, Repr

/-- One event-loop step. -/
def step (c : Client) : Event → Client
  | .init cfg => stepInit c cfg
  | .complete aid o => stepComplete c aid o
  | .progress aid s => stepProgress c aid s
  | .destroy => stepDestroy c
  | .subscribe lid => stepSubscribe c lid
  | .unsubscribe lid => stepUnsubscribe c lid

/-- Run a trace of events from a freshly constructed client. -/
def run (tr : List Event) : Client :=
  tr.foldl step Client.initial

/-- `refresh()` (lines 430-438): throws `NO_CONFIG` if `_config` is null,
otherwise re-runs `initialize` with the stored config (modelled by its
synchronous prefix). -/
def refresh (c : Client) : Except FhevmClientErr Client :=
  match c.config with
  | none => .error ⟨"NO_CONFIG", "Cannot refresh: client has not been initialized"⟩
  | some cfg => .ok (stepInit c cfg)

/-- Has an `initialize` call occurred since construction or since the most
recent `destroy`? -/
def hasInitSinceDestroy (tr : List Event) : Bool :=
  tr.foldl
    (fun b e =>
      match e with
      | .init _ => true
      | .destroy => false
      | _ => b)
    false

lemma stepComplete_config (c : Client) (aid : Nat) (o : Outcome) :
    (stepComplete c aid o).config = c.config := by
  unfold stepComplete
  split
  · cases o
    · dsimp only
      split <;> rfl
    · rfl
    · rfl
    · rfl
  · rfl

lemma stepProgress_config (c : Client) (aid : Nat) (s : String) :
    (stepProgress c aid s).config = c.config := by
  unfold stepProgress
  split <;> rfl

/-- The saved configuration is `some _` exactly when an `initialize` has
occurred since the last `destroy` (or construction). -/
lemma foldl_config (tr : List Event) (c : Client) (b : Bool)
    (h : c.config.isSome = b) :
    ((tr.foldl step c).config).isSome
      = tr.foldl
          (fun b e =>
            match e with
            | .init _ => true
            | .destroy => false
            | _ => b)
          b := by
  induction tr generalizing c b with
  | nil => simpa using h
  | cons e tr ih =>
    cases e with
    | init cfg => exact ih _ _ rfl
    | complete aid o =>
        exact ih _ _ (by rw [step, stepComplete_config]; exact h)
    | progress aid s =>
        exact ih _ _ (by rw [step, stepProgress_config]; exact h)
    | destroy => exact ih _ _ rfl
    | subscribe lid => exact ih _ _ h
    | unsubscribe lid => exact ih _ _ h

lemma config_isSome_run (tr : List Event) :
    ((run tr).config).isSome = hasInitSinceDestroy tr :=
  foldl_config tr Client.initial false rfl

/-! ## Claims about the session state machine -/

/-- C1: the claim says a superseded (still-pending, then overtaken)
initialization attempt's completion is never published as a transition to
`Ready` or `Error`.  The code checks staleness only on the success path;
its `catch` block publishes `Error` unconditionally for a non-abort
rejection.  This theorem evaluates the model at the failing trace:
`initialize(c1); initialize(c2); attempt 1 rejects with a non-abort
error` — attempt 1 is pending and superseded after the second call, yet
its completion is published, moving the machine from `Initializing` to
`Error`. -/
theorem claim_C1_stale_error_completion_published :
    (run [.init ⟨0, 1⟩, .init ⟨0, 2⟩]).state = .initializing none ∧
    (run [.init ⟨0, 1⟩, .init ⟨0, 2⟩]).initId = 2 ∧
    attemptPending (run [.init ⟨0, 1⟩, .init ⟨0, 2⟩]).attempts 1 = true ∧
    attemptAborted (run [.init ⟨0, 1⟩, .init ⟨0, 2⟩]).attempts 1 = true ∧
    (run [.init ⟨0, 1⟩, .init ⟨0, 2⟩, .complete 1 (.failOther "network down")]).state
      = .error ⟨"INIT_ERROR", "network down"⟩ := by
  decide

/-- C2: the claim says after `destroy()` the state stays `Idle` and the
listener set stays empty even when a pending initialization later
completes with an error.  The listener set indeed stays empty, but a
pending attempt that rejects with a non-abort error after `destroy()`
re-populates the state to `Error`: the `catch` block of `initialize`
publishes unconditionally.  Evaluated at the failing trace
`subscribe; initialize; destroy; attempt 1 rejects with a non-abort
error`. -/
theorem claim_C2_destroy_then_error_completion_republishes :
    (run [.subscribe 7, .init ⟨0, 1⟩, .destroy]).state = .idle ∧
    (run [.subscribe 7, .init ⟨0, 1⟩, .destroy]).listeners = [] ∧
    attemptPending (run [.subscribe 7, .init ⟨0, 1⟩, .destroy]).attempts 1 = true ∧
    (run [.subscribe 7, .init ⟨0, 1⟩, .destroy, .complete 1 (.failOther "boom")]).state
      = .error ⟨"INIT_ERROR", "boom"⟩ ∧
    (run [.subscribe 7, .init ⟨0, 1⟩, .destroy, .complete 1 (.failOther "boom")]).listeners
      = [] := by
  decide

/-- C10: `refresh()` throws `NO_CONFIG` exactly when no `initialize` call
has occurred since construction or since the most recent `destroy()`;
otherwise it re-runs `initialize` with the saved configuration (saved
before instance construction is even attempted, so an attempt that ended
in `Error` still enables `refresh`). -/
theorem claim_C10_refresh_no_config (tr : List Event) :
    (hasInitSinceDestroy tr = false →
      refresh (run tr)
        = .error ⟨"NO_CONFIG", "Cannot refresh: client has not been initialized"⟩) ∧
    (hasInitSinceDestroy tr = true →
      ∃ cfg, (run tr).config = some cfg ∧
        refresh (run tr) = .ok (stepInit (run tr) cfg)) := by
  constructor
  · intro h
    have hc : ((run tr).config).isSome = false := by
      rw [config_isSome_run]; exact h
    cases hcfg : (run tr).config with
    | none => simp [refresh, hcfg]
    | some cfg => rw [hcfg] at hc; simp at hc
  · intro h
    have hc : ((run tr).config).isSome = true := by
      rw [config_isSome_run]; exact h
    cases hcfg : (run tr).config with
    | none => rw [hcfg] at hc; simp at hc
    | some cfg => exact ⟨cfg, rfl, by simp [refresh, hcfg]⟩

/-- Witness for C10: after `initialize` then `destroy`, `refresh` throws
`NO_CONFIG`; after an `initialize` whose attempt ended in the `Error`
state, `refresh` succeeds and re-runs `initialize` with the saved
configuration. -/
theorem claim_C10_refresh_no_config_witness :
    refresh (run [.init ⟨0, 1⟩, .destroy])
      = .error ⟨"NO_CONFIG", "Cannot refresh: client has not been initialized"⟩ ∧
    (∃ cfg, (run [.init ⟨0, 1⟩, .complete 1 (.failOther "down")]).config = some cfg ∧
      refresh (run [.init ⟨0, 1⟩, .complete 1 (.failOther "down")])
        = .ok (stepInit (run [.init ⟨0, 1⟩, .complete 1 (.failOther "down")]) cfg)) :=
  ⟨(claim_C10_refresh_no_config [.init ⟨0, 1⟩, .destroy]).1 (by decide),
   (claim_C10_refresh_no_config [.init ⟨0, 1⟩, .complete 1 (.failOther "down")]).2
     (by decide)⟩

/-! ## Encrypted input builder (`EncryptionBuilder`)

Translated from `core/EncryptionBuilder.ts` (first document in the file):
`toHex` (lines 22-26), `addUint8` (lines 74-80), `encrypt` (lines
174-186), `encryptToHex` (lines 193-202).  The builder's accumulator (the
engine's `RelayerEncryptedInput`) is an ordered list of typed entries;
JavaScript `number` arguments are modelled as rationals so that
non-integral inputs are representable (`Number.isInteger` becomes a
denominator-one test). -/

/-- A typed entry of the builder's accumulator (the batch handed to the
cryptographic engine). -/
inductive Entry where
  | bool (b : Bool) : Entry
  | u8 (n : Nat) : Entry
  | u16 (n : Nat) : Entry
  | u32 (n : Nat) : Entry
  | u64 (n : Nat) : Entry
  | u128 (n : Nat) : Entry
  | u256 (n : Nat) : Entry
  | addr (s : String) : Entry
deriving DecidableEq, Repr

/-- `Number.isInteger(value)` for a rational-valued JS number. -/
def isIntegerRat (v : ℚ) : Bool := v.den == 1

/-- `addUint8(value)` (lines 74-80): the guard
`!Number.isInteger(value) || value < 0 || value > 255` throws before the
engine's `add8` is reached, so the accumulator is returned unchanged with
the error message; otherwise `add8` appends the value and `this` is
returned for chaining. -/
def addUint8 (acc : List Entry) (v : ℚ) : List Entry × Option String :=
  if ¬ isIntegerRat v = true ∨ v < 0 ∨ v > 255 then
    (acc, some ("Invalid uint8 value: " ++ toString v ++ ". Must be integer between 0-255"))
  else
    (acc ++ [.u8 v.num.toNat], none)

/-- C3: `addUint8(v)` succeeds and appends exactly the value for every
integer `v ∈ [0,255]`; for any non-integral `v` or `v` outside `[0,255]`
it fails with a validation error raised before any engine call, leaving
the accumulator unchanged. -/
theorem claim_C3_addUint8_validation (acc : List Entry) (v : ℚ) :
    (isIntegerRat v = true ∧ 0 ≤ v ∧ v ≤ 255 →
      addUint8 acc v = (acc ++ [.u8 v.num.toNat], none)) ∧
    (¬ (isIntegerRat v = true ∧ 0 ≤ v ∧ v ≤ 255) →
      ∃ msg, addUint8 acc v = (acc, some msg)) := by
  constructor
  · rintro ⟨h1, h2, h3⟩
    have hcond : ¬ (¬ isIntegerRat v = true ∨ v < 0 ∨ v > 255) := by
      push_neg
      exact ⟨h1, h2, h3⟩
    rw [addUint8, if_neg hcond]
  · intro h
    have hcond : ¬ isIntegerRat v = true ∨ v < 0 ∨ v > 255 := by
      by_contra hg
      push_neg at hg
      exact h ⟨hg.1, hg.2.1, hg.2.2⟩
    exact ⟨_, by rw [addUint8, if_pos hcond]⟩

/-- Witness for C3: `42` is accepted and appended; `256`, `-1` and the
non-integral `1/2` are each rejected with the accumulator unchanged. -/
theorem claim_C3_addUint8_validation_witness :
    addUint8 [] 42 = ([.u8 42], none) ∧
    (∃ msg, addUint8 [] 256 = ([], some msg)) ∧
    (∃ msg, addUint8 [] (-1) = ([], some msg)) ∧
    (∃ msg, addUint8 [] (1 / 2) = ([], some msg)) :=
  ⟨by simpa using (claim_C3_addUint8_validation [] 42).1 (by norm_num [isIntegerRat]),
   (claim_C3_addUint8_validation [] 256).2 (by norm_num),
   (claim_C3_addUint8_validation [] (-1)).2 (by norm_num),
   (claim_C3_addUint8_validation [] (1 / 2)).2 (by norm_num [isIntegerRat])⟩

/-- The two hex characters JavaScript's
`b.toString(16).padStart(2, "0")` produces for a byte `b`
(`Nat.toDigits 16` renders lowercase base-16 like `toString(16)`). -/
def byteToHexChars (b : Nat) : List Char :=
  List.replicate (2 - (Nat.toDigits 16 b).length) '0' ++ Nat.toDigits 16 b

/-- Body of `toHex` (lines 22-26): map each byte to its padded pair of
hex digits and join. -/
def hexBody (bytes : List Nat) : List Char :=
  (bytes.map byteToHexChars).flatten

/-- `toHex` (lines 22-26): `` `0x${...join("")}` ``. -/
def toHex (bytes : List Nat) : String :=
  String.mk ('0' :: 'x' :: hexBody bytes)

/-- Value of a lowercase hex digit character. -/
def hexCharVal (c : Char) : Nat :=
  if c.toNat ≤ 57 then c.toNat - 48 else c.toNat - 87

/-- Decode a sequence of hex-digit pairs back into bytes. -/
def decodeHexPairs : List Char → List Nat
  | c1 :: c2 :: rest => (16 * hexCharVal c1 + hexCharVal c2) :: decodeHexPairs rest
  | _ => []

/-- Decode a `0x`-prefixed hex string back into its byte sequence. -/
def fromHex (s : String) : List Nat :=
  decodeHexPairs (s.data.drop 2)

/-- Is `c` one of `0-9a-f`? -/
def isLowerHexDigit (c : Char) : Bool :=
  ('0' ≤ c && c ≤ '9') || ('a' ≤ c && c ≤ 'f')

set_option maxRecDepth 40000 in
lemma byteToHexChars_ok :
    ∀ b < 256, (byteToHexChars b).length = 2 ∧
      decodeHexPairs (byteToHexChars b) = [b] ∧
      ∀ c ∈ byteToHexChars b, isLowerHexDigit c = true := by
  decide

lemma decodeHexPairs_nil : decodeHexPairs [] = [] := rfl

lemma decodeHexPairs_append (c1 c2 : Char) (rest : List Char) :
    decodeHexPairs (c1 :: c2 :: rest)
      = (16 * hexCharVal c1 + hexCharVal c2) :: decodeHexPairs rest := rfl

lemma hexBody_props (bytes : List Nat) (h : ∀ b ∈ bytes, b < 256) :
    (hexBody bytes).length = 2 * bytes.length ∧
    decodeHexPairs (hexBody bytes) = bytes ∧
    ∀ c ∈ hexBody bytes, isLowerHexDigit c = true := by
  induction bytes with
  | nil => simp [hexBody, decodeHexPairs_nil]
  | cons b rest ih =>
    have hb := byteToHexChars_ok b (h b (by simp))
    have hrest := ih (fun x hx => h x (by simp [hx]))
    obtain ⟨c1, c2, hchars⟩ := List.length_eq_two.mp hb.1
    have hjoin : hexBody (b :: rest) = byteToHexChars b ++ hexBody rest := by
      simp [hexBody]
    refine ⟨?_, ?_, ?_⟩
    · rw [hjoin, List.length_append, hb.1, hrest.1, List.length_cons]
      ring
    · rw [hjoin, hchars, List.cons_append, List.cons_append, List.nil_append,
        decodeHexPairs_append, hrest.2.1]
      have := hb.2.1
      rw [hchars] at this
      have hval : 16 * hexCharVal c1 + hexCharVal c2 = b := by
        have : decodeHexPairs [c1, c2] = [b] := this
        simpa [decodeHexPairs] using this
      rw [hval]
    · intro c hc
      rw [hjoin] at hc
      rcases List.mem_append.mp hc with hc | hc
      · exact hb.2.2 c hc
      · exact hrest.2.2 c hc

/-- `EncryptedInput` (lines 14-17): the engine's encryption result, with
each handle and the input proof a byte sequence (`Uint8Array`). -/
structure EncryptedBytes where
  handles : List (List Nat)
  inputProof : List Nat
deriving DecidableEq, Repr

/-- The rendering performed by `encryptToHex` (lines 193-202) on the
result of `encrypt`: every handle and the proof through `toHex`. -/
def encryptToHexRender (r : EncryptedBytes) : List String × String :=
  (r.handles.map toHex, toHex r.inputProof)

/-- C6: for every byte sequence rendered by `encryptToHex` (each handle
and the input proof), the hex string is `0x`-prefixed, has exactly
`2 + 2·byteLength` characters, uses only lowercase hex digits
(zero-padded per byte, no trimming of leading zero bytes), and decoding
it recovers the original byte sequence. -/
theorem claim_C6_encryptToHex_rendering (r : EncryptedBytes)
    (h : ∀ bs ∈ r.inputProof :: r.handles, ∀ b ∈ bs, b < 256) :
    encryptToHexRender r = (r.handles.map toHex, toHex r.inputProof) ∧
    ∀ bs ∈ r.inputProof :: r.handles,
      (toHex bs).length = 2 + 2 * bs.length ∧
      (toHex bs).data.take 2 = ['0', 'x'] ∧
      (∀ c ∈ (toHex bs).data.drop 2, isLowerHexDigit c = true) ∧
      fromHex (toHex bs) = bs := by
  refine ⟨rfl, fun bs hbs => ?_⟩
  have hp := hexBody_props bs (h bs hbs)
  refine ⟨?_, rfl, ?_, ?_⟩
  · show ('0' :: 'x' :: hexBody bs).length = 2 + 2 * bs.length
    simp [hp.1]
    omega
  · intro c hc
    exact hp.2.2 c hc
  · show decodeHexPairs (('0' :: 'x' :: hexBody bs).drop 2) = bs
    simpa using hp.2.1

/-- Witness for C6, at a result containing a leading-zero byte sequence,
a `0xff` byte and a single-digit byte. -/
theorem claim_C6_encryptToHex_rendering_witness :
    (∀ bs ∈ ([0, 16] : List Nat) :: [[0], [255, 1]], ∀ b ∈ bs, b < 256) ∧
    (encryptToHexRender ⟨[[0], [255, 1]], [0, 16]⟩
      = ([[0], [255, 1]].map toHex, toHex [0, 16]) ∧
    ∀ bs ∈ ([0, 16] : List Nat) :: [[0], [255, 1]],
      (toHex bs).length = 2 + 2 * bs.length ∧
      (toHex bs).data.take 2 = ['0', 'x'] ∧
      (∀ c ∈ (toHex bs).data.drop 2, isLowerHexDigit c = true) ∧
      fromHex (toHex bs) = bs) :=
  ⟨by decide, claim_C6_encryptToHex_rendering ⟨[[0], [255, 1]], [0, 16]⟩ (by decide)⟩

/-- A value thrown by the cryptographic engine: `isError` says whether it
is a JS `Error` instance; `extra` stands for everything other than the
message (stack, class, its own cause chain). -/
structure EngFail where
  isError : Bool
  message : String
  extra : String
deriving DecidableEq, Repr

/-- The error object `encrypt`'s catch block throws:
`new Error(...)` with a message and (optionally) a `cause`. -/
structure WrappedEncryptionError where
  message : String
  cause : Option EngFail
deriving DecidableEq, Repr

/-- `encrypt()` (lines 174-186) as a function of the engine call's
outcome: on success, repackage `handles`/`inputProof`; on failure, throw
`new Error("Encryption failed: " + (error instanceof Error ?
error.message : "Unknown error"))` — no `cause` is attached. -/
def encryptWrap (engineResult : Except EngFail EncryptedBytes) :
    Except WrappedEncryptionError EncryptedBytes :=
  match engineResult with
  | .ok r => .ok ⟨r.handles, r.inputProof⟩
  | .error e =>
      .error ⟨"Encryption failed: " ++ (if e.isError then e.message else "Unknown error"),
              none⟩

/-- C7 counterexample: the claim says every engine failure is wrapped
with the original error attached as `cause`; at the concrete engine error
`⟨true, "boom", "stack"⟩` the wrapped error's `cause` is `none`, so the
claim is false. -/
theorem claim_C7_counterexample :
    ¬ ∃ w, encryptWrap (.error ⟨true, "boom", "stack"⟩) = .error w ∧
      w.cause = some ⟨true, "boom", "stack"⟩ := by
  rintro ⟨w, hw, hc⟩
  have hw' : ({ message := "Encryption failed: boom", cause := none } :
      WrappedEncryptionError) = w := by
    simpa [encryptWrap] using hw
  rw [← hw'] at hc
  simp at hc

/-- C7 amended: `encrypt` wraps every engine failure in a new error whose
message is `"Encryption failed: "` followed by the engine error's message
(`"Unknown error"` for non-`Error` throwables) and whose `cause` is
empty; consequently the wrapped error depends only on the original
message (the original error object is discarded). -/
theorem claim_C7_encrypt_wrap_amended (e e' : EngFail) (r : EncryptedBytes) :
    encryptWrap (.error e)
      = .error ⟨"Encryption failed: " ++ (if e.isError then e.message else "Unknown error"),
                none⟩ ∧
    encryptWrap (.ok r) = .ok ⟨r.handles, r.inputProof⟩ ∧
    (e.isError = e'.isError → e.message = e'.message →
      encryptWrap (.error e) = encryptWrap (.error e')) := by
  refine ⟨rfl, rfl, fun h1 h2 => ?_⟩
  simp [encryptWrap, h1, h2]

/-- Witness for C7 amended: two engine errors equal in message but
different in everything else wrap to the same (cause-free) error. -/
theorem claim_C7_encrypt_wrap_amended_witness :
    encryptWrap (.error ⟨true, "boom", "stackA"⟩)
      = .error ⟨"Encryption failed: " ++ (if true then "boom" else "Unknown error"), none⟩ ∧
    encryptWrap (.error ⟨true, "boom", "stackA"⟩)
      = encryptWrap (.error ⟨true, "boom", "stackB"⟩) :=
  ⟨(claim_C7_encrypt_wrap_amended ⟨true, "boom", "stackA"⟩ ⟨true, "boom", "stackB"⟩
      ⟨[], []⟩).1,
   (claim_C7_encrypt_wrap_amended ⟨true, "boom", "stackA"⟩ ⟨true, "boom", "stackB"⟩
      ⟨[], []⟩).2.2 rfl rfl⟩

/-! ## Decryption coordinator (`DecryptionHandler`)

Translated from `core/DecryptionHandler.ts`: `decrypt` (lines 87-96),
`decryptMany` (lines 102-150), `_performDecryption` (lines 156-184),
`clearSignatureCache` (lines 259-273).  `FhevmDecryptionSignature` is not
part of `src/` (only its callers are), so its `loadOrSign` is an
environment-supplied oracle indexed by call number and its `isValid` is
modelled from the spec.  The engine's `userDecrypt`, the signer's
`getAddress` and the wall clock are likewise environment parameters; the
effect record tracks which collaborators each call invoked. -/

/-- `DecryptedValue`: `string | bigint | boolean`. -/
inductive DecValue where
  | str (s : String) : DecValue
  | int (n : Int) : DecValue
  | bool (b : Bool) : DecValue
deriving DecidableEq, Repr

/-- `DecryptionRequest`: `{ handle, contractAddress }`. -/
structure DecryptionRequest where
  handle : String
  contractAddress : String
deriving DecidableEq, Repr

/-- Modelled from the spec: the `FhevmDecryptionSignature` record (its
source file is not under `src/`); only the fields `decryptMany` and
`_performDecryption` read. -/
structure DecryptionSig where
  publicKey : String
  privateKey : String
  signature : String
  contractAddresses : List String
  userAddress : String
  startTimestamp : Nat
  durationDays : Nat
deriving DecidableEq, Repr

/-- Modelled from the spec: `FhevmDecryptionSignature.isValid()` (source
not under `src/`) — "a pure function of wall-clock time versus
`startTimestamp + durationDays`", with the duration in days converted to
seconds (the spec's expiry example uses `durationDays*86400`). -/
def DecryptionSig.isValid (sig : DecryptionSig) (now : Nat) : Bool :=
  now < sig.startTimestamp + sig.durationDays * 86400

/-- `[...contractAddresses].sort()` — JavaScript's default lexicographic
string sort (code-unit order; identical to code-point order on the ASCII
addresses used here). -/
def sortStrings (l : List String) : List String :=
  List.insertionSort (· ≤ ·) l

/-- The cache key built in `clearSignatureCache` (lines 264-266):
`` `fhevm_signature_${userAddress}_${sortedAddresses.join("_")}_${publicKey}` ``. -/
def cacheKey (userAddress : String) (contractAddresses : List String)
    (publicKey : String) : String :=
  "fhevm_signature_" ++ userAddress ++ "_"
    ++ String.intercalate "_" (sortStrings contractAddresses) ++ "_" ++ publicKey

/-- Observable collaborator invocations of one coordinator call. -/
structure DecryptEffects where
  loadOrSignCalls : Nat
  evictedKeys : List String
  engineCalls : Nat
deriving DecidableEq, Repr

/-- The coordinator's environment: the signer's address, the optional
caller-supplied keypair's public key (`_keypair?.publicKey`), the
`loadOrSign` oracle (indexed by call number within one coordinator call),
the engine's `userDecrypt`, and the wall clock. -/
structure HandlerEnv where
  userAddress : String
  keypairPublicKey : Option String
  loadOrSign : Nat → Option DecryptionSig
  engine : List DecryptionRequest → DecryptionSig →
    Except String (List (String × DecValue))
  now : Nat

/-- `Array.from(new Set(...))` — deduplication keeping first
occurrences. -/
def dedupFirst (l : List String) : List String :=
  l.foldl (fun acc a => if a ∈ acc then acc else acc ++ [a]) []

/-- `_performDecryption` (lines 156-184): call the engine once; wrap a
failure's message as `"Decryption failed: ..."`. -/
def performDecryption (env : HandlerEnv) (requests : List DecryptionRequest)
    (sig : DecryptionSig) : Except String (List (String × DecValue)) :=
  match env.engine requests sig with
  | .ok m => .ok m
  | .error msg => .error ("Decryption failed: " ++ msg)

/-- `decryptMany` (lines 102-150): `{}` for an empty request list;
otherwise load-or-sign, validate, on expiry evict the cache entry (the
key `clearSignatureCache` builds from the unique contract set and
`_keypair?.publicKey || ""`) and load-or-sign once more, failing if the
fresh authorization is absent or still invalid, else decrypt. -/
def decryptMany (env : HandlerEnv) (requests : List DecryptionRequest) :
    Except String (List (String × DecValue)) × DecryptEffects :=
  if requests.length = 0 then (.ok [], ⟨0, [], 0⟩)
  else
    let uniqueAddresses := dedupFirst (requests.map (·.contractAddress))
    match env.loadOrSign 0 with
    | none => (.error "Failed to create decryption signature", ⟨1, [], 0⟩)
    | some sig =>
      if sig.isValid env.now then
        (performDecryption env requests sig, ⟨1, [], 1⟩)
      else
        let key := cacheKey env.userAddress uniqueAddresses
          (env.keypairPublicKey.getD "")
        match env.loadOrSign 1 with
        | none =>
            (.error "Decryption signature has expired and could not be refreshed",
             ⟨2, [key], 0⟩)
        | some fresh =>
          if fresh.isValid env.now then
            (performDecryption env requests fresh, ⟨2, [key], 1⟩)
          else
            (.error "Decryption signature has expired and could not be refreshed",
             ⟨2, [key], 0⟩)

/-- `Object.prototype.hasOwnProperty.call(results, handle)`. -/
def hasOwn (m : List (String × DecValue)) (h : String) : Bool :=
  m.any fun p => p.1 == h

/-- `decrypt` (lines 87-96): run `decryptMany([request])`; throw
`"Failed to decrypt handle: ..."` when the result map has no own entry
for the handle (checked with `hasOwnProperty`, independent of value
truthiness), else return `results[request.handle]`. -/
def decrypt (env : HandlerEnv) (req : DecryptionRequest) :
    Except String DecValue × DecryptEffects :=
  match decryptMany env [req] with
  | (.error e, eff) => (.error e, eff)
  | (.ok results, eff) =>
    match results.lookup req.handle with
    | none => (.error ("Failed to decrypt handle: " ++ req.handle), eff)
    | some v => (.ok v, eff)

lemma hasOwn_eq_lookup_isSome (m : List (String × DecValue)) (h : String) :
    hasOwn m h = (m.lookup h).isSome := by
  induction m with
  | nil => rfl
  | cons p rest ih =>
    rcases p with ⟨k, v⟩
    by_cases hk : k = h
    · subst hk
      simp [hasOwn, List.lookup]
    · have h1 : (k == h) = false := by simpa using hk
      have h2 : (h == k) = false := by simpa using Ne.symm hk
      simpa [hasOwn, List.lookup, h1, h2] using ih

/-- C4: when `decryptMany` on the single request returns a result map,
`decrypt` yields the map's value for the handle whenever an own entry
exists (even a falsy one — the value is arbitrary), and fails with the
missing-result error exactly when no entry exists; existence (`hasOwn`)
coincides with `lookup` producing a value, independent of the value. -/
theorem claim_C4_decrypt_existence_not_truthiness (env : HandlerEnv)
    (req : DecryptionRequest) (m : List (String × DecValue))
    (eff : DecryptEffects)
    (hdm : decryptMany env [req] = (.ok m, eff)) :
    (hasOwn m req.handle = true →
      ∃ v, m.lookup req.handle = some v ∧ decrypt env req = (.ok v, eff)) ∧
    (hasOwn m req.handle = false →
      decrypt env req = (.error ("Failed to decrypt handle: " ++ req.handle), eff)) := by
  constructor
  · intro hown
    rw [hasOwn_eq_lookup_isSome] at hown
    obtain ⟨v, hv⟩ := Option.isSome_iff_exists.mp hown
    exact ⟨v, hv, by simp [decrypt, hdm, hv]⟩
  · intro hown
    rw [hasOwn_eq_lookup_isSome] at hown
    have hv : m.lookup req.handle = none := by
      cases hl : m.lookup req.handle with
      | none => rfl
      | some v => rw [hl] at hown; simp at hown
    simp [decrypt, hdm, hv]

/-- Environment whose engine returns the falsy entry
`{"0xAAA": false}`. -/
def envFalsy : HandlerEnv :=
  { userAddress := "0xUUU", keypairPublicKey := none,
    loadOrSign := fun _ => some ⟨"pk", "sk", "sig", ["0xCCC"], "0xUUU", 0, 1⟩,
    engine := fun _ _ => .ok [("0xAAA", .bool false)],
    now := 0 }

/-- Environment whose engine returns a map omitting `"0xAAA"`. -/
def envMissing : HandlerEnv :=
  { envFalsy with engine := fun _ _ => .ok [("0xBBB", .int 0)] }

/-- Witness for C4: an own entry with value `false` is returned as
`false`; an absent entry fails with the missing-result error. -/
theorem claim_C4_decrypt_existence_not_truthiness_witness :
    decryptMany envFalsy [⟨"0xAAA", "0xCCC"⟩]
      = (.ok [("0xAAA", .bool false)], ⟨1, [], 1⟩) ∧
    (∃ v, List.lookup "0xAAA" [("0xAAA", DecValue.bool false)] = some v ∧
      decrypt envFalsy ⟨"0xAAA", "0xCCC"⟩ = (.ok v, ⟨1, [], 1⟩)) ∧
    decryptMany envMissing [⟨"0xAAA", "0xCCC"⟩]
      = (.ok [("0xBBB", .int 0)], ⟨1, [], 1⟩) ∧
    decrypt envMissing ⟨"0xAAA", "0xCCC"⟩
      = (.error ("Failed to decrypt handle: " ++ "0xAAA"), ⟨1, [], 1⟩) :=
  ⟨rfl,
   (claim_C4_decrypt_existence_not_truthiness envFalsy ⟨"0xAAA", "0xCCC"⟩
      [("0xAAA", .bool false)] ⟨1, [], 1⟩ rfl).1 (by decide),
   rfl,
   (claim_C4_decrypt_existence_not_truthiness envMissing ⟨"0xAAA", "0xCCC"⟩
      [("0xBBB", .int 0)] ⟨1, [], 1⟩ rfl).2 (by decide)⟩

/-- C5: when the cached authorization is expired, `decryptMany` evicts
exactly its cache entry and makes exactly one further `loadOrSign`
request; if the fresh authorization is absent or still invalid it fails
with the expiry error without any engine call, otherwise it decrypts
with the fresh authorization. -/
theorem claim_C5_expired_signature_refreshed_once (env : HandlerEnv)
    (requests : List DecryptionRequest) (sig : DecryptionSig)
    (hne : requests ≠ [])
    (h0 : env.loadOrSign 0 = some sig)
    (hinv : sig.isValid env.now = false) :
    (decryptMany env requests).2.evictedKeys
      = [cacheKey env.userAddress (dedupFirst (requests.map (·.contractAddress)))
          (env.keypairPublicKey.getD "")] ∧
    (decryptMany env requests).2.loadOrSignCalls = 2 ∧
    ((env.loadOrSign 1 = none ∨
        (∃ f, env.loadOrSign 1 = some f ∧ f.isValid env.now = false)) →
      (decryptMany env requests).1
          = .error "Decryption signature has expired and could not be refreshed" ∧
      (decryptMany env requests).2.engineCalls = 0) ∧
    (∀ f, env.loadOrSign 1 = some f → f.isValid env.now = true →
      decryptMany env requests
        = (performDecryption env requests f,
           ⟨2, [cacheKey env.userAddress (dedupFirst (requests.map (·.contractAddress)))
                 (env.keypairPublicKey.getD "")], 1⟩)) := by
  have hlen : ¬ requests.length = 0 := by
    simpa [List.length_eq_zero] using hne
  rw [decryptMany, if_neg hlen, h0]
  cases h1 : env.loadOrSign 1 with
  | none =>
      refine ⟨by simp [hinv], by simp [hinv], fun _ => by simp [hinv], ?_⟩
      intro f hf
      exact absurd hf (by simp)
  | some fresh =>
      by_cases hfv : fresh.isValid env.now = true
      · refine ⟨by simp [hinv, hfv], by simp [hinv, hfv], ?_, ?_⟩
        · rintro (habs | ⟨f, hf, hfi⟩)
          · exact absurd habs (by simp)
          · have hffresh : fresh = f := by simpa using hf
            rw [← hffresh, hfv] at hfi
            exact absurd hfi (by simp)
        · intro f hf _
          have hffresh : fresh = f := by simpa using hf
          simp [hinv, hfv, ← hffresh]
      · have hfv' : fresh.isValid env.now = false := by simpa using hfv
        refine ⟨by simp [hinv, hfv'], by simp [hinv, hfv'],
          fun _ => by simp [hinv, hfv'], ?_⟩
        intro f hf hfi
        have hffresh : fresh = f := by simpa using hf
        rw [← hffresh, hfv'] at hfi
        exact absurd hfi (by simp)

/-- Environment whose cached authorization is expired and whose fresh
authorization is expired as well. -/
def envExpired : HandlerEnv :=
  { userAddress := "0xUUU", keypairPublicKey := some "pk",
    loadOrSign := fun _ => some ⟨"pk", "sk", "sig", ["0xCCC"], "0xUUU", 0, 1⟩,
    engine := fun _ _ => .ok [],
    now := 86401 }

/-- Witness for C5: with both the cached and the fresh authorization
expired, the entry is evicted, exactly two `loadOrSign` calls are made,
and the call fails with the expiry error without touching the engine. -/
theorem claim_C5_expired_signature_refreshed_once_witness :
    ([⟨"0xAAA", "0xCCC"⟩] : List DecryptionRequest) ≠ [] ∧
    envExpired.loadOrSign 0 = some ⟨"pk", "sk", "sig", ["0xCCC"], "0xUUU", 0, 1⟩ ∧
    DecryptionSig.isValid ⟨"pk", "sk", "sig", ["0xCCC"], "0xUUU", 0, 1⟩ envExpired.now
      = false ∧
    ((decryptMany envExpired [⟨"0xAAA", "0xCCC"⟩]).2.evictedKeys
      = [cacheKey envExpired.userAddress
          (dedupFirst ([⟨"0xAAA", "0xCCC"⟩].map (DecryptionRequest.contractAddress)))
          (envExpired.keypairPublicKey.getD "")] ∧
     (decryptMany envExpired [⟨"0xAAA", "0xCCC"⟩]).2.loadOrSignCalls = 2 ∧
     (decryptMany envExpired [⟨"0xAAA", "0xCCC"⟩]).1
        = .error "Decryption signature has expired and could not be refreshed" ∧
     (decryptMany envExpired [⟨"0xAAA", "0xCCC"⟩]).2.engineCalls = 0) := by
  refine ⟨by decide, by decide, by decide, ?_⟩
  have h := claim_C5_expired_signature_refreshed_once envExpired
    [⟨"0xAAA", "0xCCC"⟩] ⟨"pk", "sk", "sig", ["0xCCC"], "0xUUU", 0, 1⟩
    (by decide) (by decide) (by decide)
  have herr := h.2.2.1
    (Or.inr ⟨⟨"pk", "sk", "sig", ["0xCCC"], "0xUUU", 0, 1⟩, by decide, by decide⟩)
  exact ⟨h.1, h.2.1, herr.1, herr.2⟩

/-- C8: the authorization cache key is invariant under permutation of the
contract-address list — any two orderings of the same addresses (same
user address and public key) produce the identical key. -/
theorem claim_C8_cache_key_permutation_invariant (user pub : String)
    (l1 l2 : List String) (h : l1.Perm l2) :
    cacheKey user l1 pub = cacheKey user l2 pub := by
  have hsort : sortStrings l1 = sortStrings l2 := by
    apply List.eq_of_perm_of_sorted
      (((List.perm_insertionSort _ l1).trans h).trans
        (List.perm_insertionSort _ l2).symm)
      (List.sorted_insertionSort _ l1) (List.sorted_insertionSort _ l2)
  rw [cacheKey, cacheKey, hsort]

/-- Witness for C8: the two orderings of `{0xA..., 0xB...}` produce the
same cache key. -/
theorem claim_C8_cache_key_permutation_invariant_witness :
    (["0xB", "0xA"] : List String).Perm ["0xA", "0xB"] ∧
    cacheKey "0xU" ["0xB", "0xA"] "pk" = cacheKey "0xU" ["0xA", "0xB"] "pk" :=
  ⟨List.Perm.swap "0xA" "0xB" [],
   claim_C8_cache_key_permutation_invariant "0xU" "pk" _ _
     (List.Perm.swap "0xA" "0xB" [])⟩

/-- C9: `decryptMany` on the empty request list returns the empty map
with no `loadOrSign` call, no eviction and no engine call. -/
theorem claim_C9_empty_requests_no_effects (env : HandlerEnv) :
    decryptMany env [] = (.ok [], ⟨0, [], 0⟩) := rfl

end FhevmSDK
